import Mathlib

/-!
Verification development for the exhume_filesystem repository: a shallow
embedding of the APFS adapter (apfs_impl.rs), the dispatch layer
(detected_fs.rs), the NT adapter timestamp logic (ntfs_impl.rs), the generic
enumeration engine (main.rs) and the streaming adapter (filesystem.rs),
together with theorems settling the specification claims.

Machine integers: Rust u64 values are modelled as Nat with explicit
`% 2^64` wrapping, saturation or checked arithmetic exactly where the
source uses wrapping `+`, `saturating_add` / `saturating_sub` or
`checked_mul` / `checked_add`.  Byte buffers (Vec of u8) are modelled as
List Nat; the byte source (Read + Seek body) is modelled as a total
function from physical offset to byte value.  Rust strings are modelled
as List Char.  Fallible operations return Except String; a Rust panic
(unwrap / unreachable) is modelled as Option.none.
-/

/-- 2^64, the wrap-around modulus of Rust u64 arithmetic. -/
def U64 : Nat := 2 ^ 64

/-- Source constant MAX_READ_BYTES: u64 = 512 * 1024 * 1024 (apfs_impl.rs). -/
def MAX_READ_BYTES : Nat := 512 * 1024 * 1024

/-- Source constant PACKED_INODE_MASK: u64 = 0x00ff_ffff_ffff_ffff (apfs_impl.rs). -/
def PACKED_INODE_MASK : Nat := 0xffffffffffffff

/-- Source constant CACHE_SIZE: usize = 64 * 1024 (filesystem.rs). -/
def CACHE_SIZE : Nat := 64 * 1024

/-- Rust u64 saturating_add. -/
def satAdd64 (a b : Nat) : Nat := min (a + b) (U64 - 1)

/-- Rust u64 plain `+` as compiled in release mode: wrapping addition. -/
def wrapAdd64 (a b : Nat) : Nat := (a + b) % U64

/-- Rust u64 checked_mul. -/
def checkedMul64 (a b : Nat) : Option Nat :=
  if a * b < U64 then some (a * b) else none

/-- Rust u64 checked_add. -/
def checkedAdd64 (a b : Nat) : Option Nat :=
  if a + b < U64 then some (a + b) else none

/-- The normalized cross-filesystem record (struct File, filesystem.rs).
The opaque driver-native `metadata` JSON blob is not modelled. -/
structure File where
  id : Option Int
  identifier : Nat
  absolute_path : List Char
  name : List Char
  ftype : List Char
  size : Nat
  created : Option Nat
  modified : Option Nat
  accessed : Option Nat
  permissions : Option (List Char)
  owner : Option (List Char)
  group : Option (List Char)
deriving Repr, DecidableEq

/-- An APFS file extent as consumed from the exhume_apfs driver:
logical byte offset inside the file, physical block number, byte length. -/
structure Extent where
  logical_addr : Nat
  phys_block_num : Nat
  length_bytes : Nat
deriving Repr, DecidableEq

/-- The data-stream record attached to an APFS inode; only its size field
is consumed by the adapter. -/
structure ApfsDstream where
  size : Nat
deriving Repr, DecidableEq

/-- The slice of the exhume_apfs InodeVal that the adapter reads. -/
structure InodeVal where
  mode : Nat
  uncompressed_size : Nat
  private_id : Nat
  create_time : Nat
  mod_time : Nat
  access_time : Nat
  owner : Nat
  group : Nat
  dstream : Option ApfsDstream
deriving Repr, DecidableEq

/-- An exhume_apfs directory entry as consumed by the adapter. -/
structure DirEntry where
  inode_id : Option Nat
  name : List Char
  raw_id : Nat
  flags : Nat
  date_added : Nat
deriving Repr, DecidableEq

/-- Modelled from the spec: the external exhume_apfs helper is_dir_mode,
true exactly when the mode reports directory kind (POSIX S_IFDIR). -/
def is_dir_mode (mode : Nat) : Bool := mode &&& 0o170000 == 0o040000

/-- A volume filesystem tree (exhume_apfs FsTree) reduced to the three
query operations the adapter calls.  Driver read errors are not modelled:
inode_by_id and inode_id_by_private_id return the Option the driver
wraps in its Result, file_extents models unwrap_or_default (errors give
the empty list), and dir_children returns none where the driver errors. -/
structure FsTree where
  inode_by_id : Nat → Option InodeVal
  file_extents : Nat → List Extent
  inode_id_by_private_id : Nat → Option Nat
  dir_children : Nat → Option (List DirEntry)

/-- The APFS adapter state (struct ApfsFs, apfs_impl.rs).  A volume
superblock is reduced to its fs_index; valid_volumes lists
(fs_index, root_inode_id) pairs.  `selected_fs_index` is the fs_index of
the selected volume (`self.volume`).  `trees` models
open_fstree_for_volume (and the observationally transparent cache):
none means the driver fails to open that volume tree.  `block_size`
models apfs.block_size_u64() and `disk` the seekable byte source. -/
structure ApfsFs where
  valid_volumes : List (Nat × Nat)
  selected_fs_index : Nat
  trees : Nat → Option FsTree
  block_size : Nat
  disk : Nat → Nat

/-- ApfsFs::volume_by_index (apfs_impl.rs line 102). -/
def ApfsFs.volume_by_index (fs : ApfsFs) (fs_index : Nat) : Option (Nat × Nat) :=
  fs.valid_volumes.find? (fun v => v.1 == fs_index)

/-- ApfsFs::get_fstree (apfs_impl.rs line 91): unknown volume index is an
error; otherwise the volume tree is opened (none = driver open failure). -/
def ApfsFs.get_fstree (fs : ApfsFs) (fs_index : Nat) : Except String FsTree :=
  match fs.volume_by_index fs_index with
  | none => .error ("Volume with fs_index " ++ toString fs_index ++ " not found")
  | some _ =>
    match fs.trees fs_index with
    | some t => .ok t
    | none => .error "could not open the volume filesystem tree"

/-- The ApfsFileRecord handed around by the adapter. -/
structure ApfsFileRecord where
  fs_index : Nat
  inode_id : Nat
  inode : InodeVal
deriving Repr, DecidableEq

/-- FileCommon::size for ApfsFileRecord (apfs_impl.rs line 173):
the dstream size when present, else the uncompressed_size field. -/
def ApfsFileRecord.size (r : ApfsFileRecord) : Nat :=
  (r.inode.dstream.map (fun d => d.size)).getD r.inode.uncompressed_size

/-- FileCommon::is_dir for ApfsFileRecord. -/
def ApfsFileRecord.is_dir (r : ApfsFileRecord) : Bool := is_dir_mode r.inode.mode

/-- The extent list used by effective_size and by the slice reader
(apfs_impl.rs lines 209-214 and 473-480): the extents keyed by the inode
id, falling back to the extents keyed by the private id when the primary
list is empty and the private id is non-zero. -/
def fileExtentsWithFallback (fst : FsTree) (r : ApfsFileRecord) : List Extent :=
  let ext := fst.file_extents r.inode_id
  if ext.isEmpty && (r.inode.private_id != 0) then
    fst.file_extents r.inode.private_id
  else ext

/-- ApfsFileRecord::effective_size (apfs_impl.rs line 203): the declared
size, raised to the maximal extent end (u64 saturating add) if larger. -/
def effective_size (fst : FsTree) (r : ApfsFileRecord) : Nat :=
  let declared := r.size
  let ext := fileExtentsWithFallback fst r
  let max_end := ext.foldl (fun m e => max m (satAdd64 e.logical_addr e.length_bytes)) 0
  if declared < max_end then max_end else declared

/-- pack_identifier (apfs_impl.rs line 551): (fs_index as u64) << 56,
which keeps only the low 8 bits of fs_index inside u64, or-ed with the
low 56 bits of the inode id. -/
def pack_identifier (fs_index inode_id : Nat) : Nat :=
  ((fs_index <<< 56) % U64) ||| (inode_id &&& PACKED_INODE_MASK)

/-- unpack_identifier (apfs_impl.rs line 555): succeeds only when both
the high byte and the low 56 bits are non-zero. -/
def unpack_identifier (file_id : Nat) : Option (Nat × Nat) :=
  let fs_index := file_id >>> 56
  let inode_id := file_id &&& PACKED_INODE_MASK
  if 0 < fs_index && 0 < inode_id then some (fs_index, inode_id) else none

/-- The "inode not found" error message built by ApfsFs::get_file. -/
def inodeNotFoundMsg (inode_query fs_index : Nat) : String :=
  "inode not found for id=" ++ toString inode_query ++
    " (fs_index=" ++ toString fs_index ++ ")"

/-- ApfsFs::get_file (apfs_impl.rs line 307).  A packed id naming a known
volume is resolved there as (fs_index, inode_id); a packed id naming an
unknown volume, or an id that does not unpack, is taken as a bare inode
id against the selected volume.  Lookup is by inode id first, then via
the private-id mapping; if both fail the "inode not found" error is
returned. -/
def get_file_target (fs : ApfsFs) (file_id : Nat) : Nat × Nat :=
  match unpack_identifier file_id with
  | some (fs_idx, inode_id) =>
    if (fs.volume_by_index fs_idx).isSome then (fs_idx, inode_id)
    else (fs.selected_fs_index, file_id)
  | none => (fs.selected_fs_index, file_id)

/-- ApfsFs::get_file, continued: resolution against the chosen volume. -/
def ApfsFs.get_file (fs : ApfsFs) (file_id : Nat) : Except String ApfsFileRecord :=
  match fs.get_fstree (get_file_target fs file_id).1 with
  | .error e => .error e
  | .ok fst =>
    match fst.inode_by_id (get_file_target fs file_id).2 with
    | some inode =>
      .ok ⟨(get_file_target fs file_id).1, (get_file_target fs file_id).2, inode⟩
    | none =>
      match fst.inode_id_by_private_id (get_file_target fs file_id).2 with
      | some inode_id =>
        match fst.inode_by_id inode_id with
        | some inode => .ok ⟨(get_file_target fs file_id).1, inode_id, inode⟩
        | none =>
          .error (inodeNotFoundMsg (get_file_target fs file_id).2
            (get_file_target fs file_id).1)
      | none =>
        .error (inodeNotFoundMsg (get_file_target fs file_id).2
          (get_file_target fs file_id).1)

/-- One iteration of the extent loop of read_file_slice_with_size
(apfs_impl.rs lines 483-507).  The output buffer is modelled as a
function from index to byte; an extent overlapping the requested window
overwrites the overlap with the bytes read at the checked physical
offset.  The error is the checked-arithmetic failure of the source. -/
def writeExtent (bs : Nat) (disk : Nat → Nat) (offset endPos : Nat)
    (out : Nat → Nat) (e : Extent) : Except String (Nat → Nat) :=
  let ext_start := e.logical_addr
  let ext_end := satAdd64 e.logical_addr e.length_bytes
  let ov_start := max ext_start offset
  let ov_end := min ext_end endPos
  if ov_end ≤ ov_start then .ok out
  else
    let read_len := ov_end - ov_start
    let rel_in_ext := ov_start - ext_start
    match checkedMul64 e.phys_block_num bs with
    | none => .error "physical offset overflow"
    | some x =>
      match checkedAdd64 x rel_in_ext with
      | none => .error "physical offset overflow"
      | some phys_byte =>
        let dst_off := ov_start - offset
        .ok fun i =>
          if dst_off ≤ i ∧ i < dst_off + read_len then
            disk (phys_byte + (i - dst_off))
          else out i

/-- The extent loop folded over the extent list, left to right. -/
def writeExtents (bs : Nat) (disk : Nat → Nat) (offset endPos : Nat) :
    List Extent → (Nat → Nat) → Except String (Nat → Nat)
  | [], out => .ok out
  | e :: rest, out =>
    match writeExtent bs disk offset endPos out e with
    | .error s => .error s
    | .ok out1 => writeExtents bs disk offset endPos rest out1

/-- ApfsFs::read_file_slice_with_size (apfs_impl.rs line 447).  Zero
requested length and offsets at or past the file size return the empty
buffer; directories are refused; otherwise the window end is
min(saturating(offset+length), file_size, offset + MAX_READ_BYTES) with
the last addition wrapping in u64 as in the source, a zero-filled buffer
of end - offset bytes is allocated, and every extent overlapping the
window is copied in from the byte source. -/
def read_file_slice_with_size (fs : ApfsFs) (file : ApfsFileRecord)
    (offset length file_size : Nat) : Except String (List Nat) :=
  if length = 0 then .ok []
  else if is_dir_mode file.inode.mode then
    .error "requested file content for a directory"
  else if file_size ≤ offset then .ok []
  else
    let endPos := min (min (satAdd64 offset length) file_size)
      (wrapAdd64 offset MAX_READ_BYTES)
    let req_len := endPos - offset
    match fs.get_fstree file.fs_index with
    | .error e => .error e
    | .ok fst =>
      let ext := fileExtentsWithFallback fst file
      match writeExtents fs.block_size fs.disk offset endPos ext (fun _ => 0) with
      | .error e => .error e
      | .ok buf => .ok ((List.range req_len).map buf)

/-- ApfsFs::read_file_slice (apfs_impl.rs line 368). -/
def ApfsFs.read_file_slice (fs : ApfsFs) (file : ApfsFileRecord)
    (offset length : Nat) : Except String (List Nat) :=
  match fs.get_fstree file.fs_index with
  | .error e => .error e
  | .ok fst =>
    read_file_slice_with_size fs file offset length (effective_size fst file)

/-- The size-cap error message built by ApfsFs::read_file_content. -/
def capRefusalMsg (size : Nat) : String :=
  "refusing to allocate " ++ toString size ++ " bytes (cap=" ++
    toString MAX_READ_BYTES ++ " bytes)"

/-- ApfsFs::read_file_content (apfs_impl.rs line 343): refuses files
whose effective size exceeds MAX_READ_BYTES, otherwise reads the whole
file as a slice from offset 0. -/
def ApfsFs.read_file_content (fs : ApfsFs) (file : ApfsFileRecord) :
    Except String (List Nat) :=
  match fs.get_fstree file.fs_index with
  | .error e => .error e
  | .ok fst =>
    let size := effective_size fst file
    if MAX_READ_BYTES < size then .error (capRefusalMsg size)
    else read_file_slice_with_size fs file 0 size size

/-- Modelled from the spec: the external exhume_apfs kind label for a
mode; only the directory / non-directory distinction is relevant here. -/
def apfs_kind (mode : Nat) : List Char :=
  if is_dir_mode mode then ['D', 'i', 'r'] else ['F', 'i', 'l', 'e']

/-- apfs_mode_to_string (apfs_impl.rs line 514): kind character, nine
rwx characters, then the setuid / setgid / sticky replacements at
positions 3, 6 and 9. -/
def apfs_mode_to_string (mode : Nat) : List Char :=
  let kind : Char :=
    if mode &&& 0o170000 == 0o040000 then 'd'
    else if mode &&& 0o170000 == 0o100000 then '-'
    else if mode &&& 0o170000 == 0o120000 then 'l'
    else if mode &&& 0o170000 == 0o060000 then 'b'
    else if mode &&& 0o170000 == 0o020000 then 'c'
    else if mode &&& 0o170000 == 0o010000 then 'p'
    else if mode &&& 0o170000 == 0o140000 then 's'
    else '?'
  let bit : Nat → Char → Char := fun b c => if mode &&& b != 0 then c else '-'
  let base : List Char :=
    [kind, bit 0o400 'r', bit 0o200 'w', bit 0o100 'x',
      bit 0o040 'r', bit 0o020 'w', bit 0o010 'x',
      bit 0o004 'r', bit 0o002 'w', bit 0o001 'x']
  let s1 := if mode &&& 0o4000 != 0 then
      base.set 3 (if mode &&& 0o100 != 0 then 's' else 'S') else base
  let s2 := if mode &&& 0o2000 != 0 then
      s1.set 6 (if mode &&& 0o010 != 0 then 's' else 'S') else s1
  if mode &&& 0o1000 != 0 then
    s2.set 9 (if mode &&& 0o001 != 0 then 't' else 'T') else s2

/-- Modelled from the Rust standard library: Path::file_name as used on
the adapter paths — the last path component, none for a path with an
empty last component (such as the bare separator). -/
def path_file_name (p : List Char) : Option (List Char) :=
  let leaf := (p.reverse.takeWhile (fun c => c ≠ '/')).reverse
  if leaf.isEmpty then none else some leaf

/-- ApfsFs::record_to_file (apfs_impl.rs line 403): the normalized
record.  Note that created / modified / accessed are always Some of the
nanosecond inode time divided by 1e9, owner and group are the printed
ids, and the name falls back to the whole path. -/
def ApfsFs.record_to_file (_fs : ApfsFs) (file : ApfsFileRecord)
    (file_id : Nat) (absolute_path : List Char) : File :=
  { id := none
    identifier := file_id
    absolute_path := absolute_path
    name := (path_file_name absolute_path).getD absolute_path
    ftype := apfs_kind file.inode.mode
    size := file.size
    created := some (file.inode.create_time / 1000000000)
    modified := some (file.inode.mod_time / 1000000000)
    accessed := some (file.inode.access_time / 1000000000)
    permissions := some (apfs_mode_to_string file.inode.mode)
    owner := some (Nat.repr file.inode.owner).data
    group := some (Nat.repr file.inode.group).data }

/-- The per-volume path root format!("/volume_{}", fs_index)
(apfs_impl.rs line 124). -/
def volPrefixPath (fs_index : Nat) : List Char :=
  '/' :: 'v' :: 'o' :: 'l' :: 'u' :: 'm' :: 'e' :: '_' :: (Nat.repr fs_index).data

/-- The loop body of ApfsFs::walk_fs for one volume (apfs_impl.rs lines
122-161), with explicit fuel for the unbounded breadth-first loop: a
FIFO of (inode id, path), a visited set of inode ids; fresh ids are
resolved in the volume tree (missing inodes are skipped), emitted as
normalized records under the packed identifier, and directory children
with non-null inode ids are enqueued with the path extended by "/name".
Errors obtaining the volume tree propagate. -/
def walk_volume_loop (fs : ApfsFs) (fs_index : Nat) (volRoot : List Char) :
    Nat → List Nat → List (Nat × List Char) → List File → Except String (List File)
  | 0, _, _, out => .ok out
  | _ + 1, _, [], out => .ok out
  | fuel + 1, visited, (inode_id, path) :: rest, out =>
    if inode_id ∈ visited then
      walk_volume_loop fs fs_index volRoot fuel visited rest out
    else
      match fs.get_fstree fs_index with
      | .error e => .error e
      | .ok fst =>
        match fst.inode_by_id inode_id with
        | none =>
          walk_volume_loop fs fs_index volRoot fuel (inode_id :: visited) rest out
        | some inode =>
          let r : ApfsFileRecord := ⟨fs_index, inode_id, inode⟩
          let packed := pack_identifier fs_index inode_id
          let out1 := out ++ [fs.record_to_file r packed path]
          if r.is_dir then
            match fst.dir_children inode_id with
            | none =>
              walk_volume_loop fs fs_index volRoot fuel (inode_id :: visited) rest out1
            | some children =>
              let kids := children.filterMap fun de =>
                de.inode_id.map fun cid =>
                  (cid, if path = volRoot then volRoot ++ '/' :: de.name
                        else path ++ '/' :: de.name)
              walk_volume_loop fs fs_index volRoot fuel (inode_id :: visited)
                (rest ++ kids) out1
          else
            walk_volume_loop fs fs_index volRoot fuel (inode_id :: visited) rest out1

/-- ApfsFs::walk_fs over the valid volumes in list order (apfs_impl.rs
line 115), collecting the emitted records as enumerate_all_files does. -/
def walk_fs_volumes (fs : ApfsFs) (fuel : Nat) :
    List (Nat × Nat) → Except String (List File)
  | [] => .ok []
  | (fs_index, root_inode_id) :: vols =>
    match walk_volume_loop fs fs_index (volPrefixPath fs_index) fuel []
        [(root_inode_id, volPrefixPath fs_index)] [] with
    | .error e => .error e
    | .ok out =>
      match walk_fs_volumes fs fuel vols with
      | .error e => .error e
      | .ok rest => .ok (out ++ rest)

/-- ApfsFs::enumerate_all_files (apfs_impl.rs line 109). -/
def enumerate_all_files (fs : ApfsFs) (fuel : Nat) : Except String (List File) :=
  walk_fs_volumes fs fuel fs.valid_volumes

/-- filetime_to_unix_secs (ntfs_impl.rs line 70): FILETIME 100-ns units
since 1601-01-01 divided by 10^7 with the Unix-epoch offset subtracted;
Nat subtraction models the u64 saturating_sub. -/
def filetime_to_unix_secs (ft : Nat) : Nat :=
  ft / 10000000 - 11644473600

/-- The (created, mft_modified, accessed) FILETIME triple the NT adapter
extracts from $STANDARD_INFORMATION (or the first $FILE_NAME, or zeros). -/
structure NtfsTimes where
  created : Nat
  mft_modified : Nat
  accessed : Nat
deriving Repr, DecidableEq

/-- The timestamp normalization step of NTFS record_to_file
(ntfs_impl.rs lines 168-170): a zero FILETIME becomes none, a non-zero
one becomes some of its Unix-seconds conversion. -/
def ntfs_normalize_times (t : NtfsTimes) :
    Option Nat × Option Nat × Option Nat :=
  ((if t.created ≠ 0 then some (filetime_to_unix_secs t.created) else none),
   (if t.mft_modified ≠ 0 then some (filetime_to_unix_secs t.mft_modified) else none),
   (if t.accessed ≠ 0 then some (filetime_to_unix_secs t.accessed) else none))

/-- The dispatch-layer tagged union over adapter states (enum DetectedFs,
detected_fs.rs); the four adapter state types are abstract. -/
inductive DetectedFs (E N X A : Type) where
  | Ext : E → DetectedFs E N X A
  | Ntfs : N → DetectedFs E N X A
  | Exfat : X → DetectedFs E N X A
  | Apfs : A → DetectedFs E N X A

/-- The dispatch-layer tagged union over records (enum DetectedFile). -/
inductive DetectedFile (IE IN IX IA : Type) where
  | Ext : IE → DetectedFile IE IN IX IA
  | Ntfs : IN → DetectedFile IE IN IX IA
  | Exfat : IX → DetectedFile IE IN IX IA
  | Apfs : IA → DetectedFile IE IN IX IA

/-- The dispatch-layer tagged union over directory entries (enum DetectedDir). -/
inductive DetectedDir (DE DN DX DA : Type) where
  | Ext : DE → DetectedDir DE DN DX DA
  | Ntfs : DN → DetectedDir DE DN DX DA
  | Exfat : DX → DetectedDir DE DN DX DA
  | Apfs : DA → DetectedDir DE DN DX DA

/-- True when the filesystem variant and the record variant agree. -/
def variantAgrees {E N X A IE IN IX IA : Type}
    (fs : DetectedFs E N X A) (rec : DetectedFile IE IN IX IA) : Bool :=
  match fs, rec with
  | .Ext _, .Ext _ => true
  | .Ntfs _, .Ntfs _ => true
  | .Exfat _, .Exfat _ => true
  | .Apfs _, .Apfs _ => true
  | _, _ => false

/-- The variant-mismatch message of the dispatch layer (detected_fs.rs). -/
def mismatchMsg : String := "filesystem / record variant mismatch"

/-- DetectedFs read_file_content dispatch (detected_fs.rs line 172): the
per-adapter implementations are abstract handler parameters; a matching
pair forwards, a mismatched pair returns the mismatch error without
consulting any handler (hence without touching the byte source). -/
def detected_read_file_content {E N X A IE IN IX IA : Type}
    (hE : E → IE → Except String (List Nat))
    (hN : N → IN → Except String (List Nat))
    (hX : X → IX → Except String (List Nat))
    (hA : A → IA → Except String (List Nat))
    (fs : DetectedFs E N X A) (rec : DetectedFile IE IN IX IA) :
    Except String (List Nat) :=
  match fs, rec with
  | .Ext f, .Ext r => hE f r
  | .Ntfs f, .Ntfs r => hN f r
  | .Exfat f, .Exfat r => hX f r
  | .Apfs f, .Apfs r => hA f r
  | _, _ => .error mismatchMsg

/-- DetectedFs read_file_prefix dispatch (detected_fs.rs line 181). -/
def detected_read_file_prefix {E N X A IE IN IX IA : Type}
    (hE : E → IE → Nat → Except String (List Nat))
    (hN : N → IN → Nat → Except String (List Nat))
    (hX : X → IX → Nat → Except String (List Nat))
    (hA : A → IA → Nat → Except String (List Nat))
    (fs : DetectedFs E N X A) (rec : DetectedFile IE IN IX IA) (length : Nat) :
    Except String (List Nat) :=
  match fs, rec with
  | .Ext f, .Ext r => hE f r length
  | .Ntfs f, .Ntfs r => hN f r length
  | .Exfat f, .Exfat r => hX f r length
  | .Apfs f, .Apfs r => hA f r length
  | _, _ => .error mismatchMsg

/-- DetectedFs read_file_slice dispatch (detected_fs.rs line 196). -/
def detected_read_file_slice {E N X A IE IN IX IA : Type}
    (hE : E → IE → Nat → Nat → Except String (List Nat))
    (hN : N → IN → Nat → Nat → Except String (List Nat))
    (hX : X → IX → Nat → Nat → Except String (List Nat))
    (hA : A → IA → Nat → Nat → Except String (List Nat))
    (fs : DetectedFs E N X A) (rec : DetectedFile IE IN IX IA)
    (offset length : Nat) : Except String (List Nat) :=
  match fs, rec with
  | .Ext f, .Ext r => hE f r offset length
  | .Ntfs f, .Ntfs r => hN f r offset length
  | .Exfat f, .Exfat r => hX f r offset length
  | .Apfs f, .Apfs r => hA f r offset length
  | _, _ => .error mismatchMsg

/-- DetectedFs list_dir dispatch (detected_fs.rs line 218): matching arms
map the adapter entries into the DetectedDir union. -/
def detected_list_dir {E N X A IE IN IX IA DE DN DX DA : Type}
    (hE : E → IE → Except String (List DE))
    (hN : N → IN → Except String (List DN))
    (hX : X → IX → Except String (List DX))
    (hA : A → IA → Except String (List DA))
    (fs : DetectedFs E N X A) (rec : DetectedFile IE IN IX IA) :
    Except String (List (DetectedDir DE DN DX DA)) :=
  match fs, rec with
  | .Ext f, .Ext r => (hE f r).map (fun v => v.map DetectedDir.Ext)
  | .Ntfs f, .Ntfs r => (hN f r).map (fun v => v.map DetectedDir.Ntfs)
  | .Exfat f, .Exfat r => (hX f r).map (fun v => v.map DetectedDir.Exfat)
  | .Apfs f, .Apfs r => (hA f r).map (fun v => v.map DetectedDir.Apfs)
  | _, _ => .error mismatchMsg

/-- DetectedFs record_to_file dispatch (detected_fs.rs line 252).  The
mismatch arm of the source is `unreachable!("filesystem / record variant
mismatch")` — a panic, since record_to_file has no error channel; the
panic is modelled as none. -/
def detected_record_to_file {E N X A IE IN IX IA : Type}
    (hE : E → IE → Nat → List Char → File)
    (hN : N → IN → Nat → List Char → File)
    (hX : X → IX → Nat → List Char → File)
    (hA : A → IA → Nat → List Char → File)
    (fs : DetectedFs E N X A) (rec : DetectedFile IE IN IX IA)
    (inode_num : Nat) (absolute_path : List Char) : Option File :=
  match fs, rec with
  | .Ext f, .Ext r => some (hE f r inode_num absolute_path)
  | .Ntfs f, .Ntfs r => some (hN f r inode_num absolute_path)
  | .Exfat f, .Exfat r => some (hX f r inode_num absolute_path)
  | .Apfs f, .Apfs r => some (hA f r inode_num absolute_path)
  | _, _ => none

/-- The uniform interface surface consumed by the generic enumeration
engine (main.rs enumerate_collect), with the operations it calls reduced
to response functions: get_file errors are none (the engine skips them),
list_dir errors are none (children skipped). -/
structure EngineFs (F D : Type) where
  path_separator : List Char
  get_root_file_id : Nat
  get_file : Nat → Option F
  is_dir : F → Bool
  list_dir : F → Option (List D)
  dir_file_id : D → Nat
  dir_name : D → List Char
  record_to_file : F → Nat → List Char → File

/-- The loop of enumerate_collect (main.rs lines 261-289), with explicit
fuel: FIFO of (id, path), visited set of ids; fresh resolvable ids are
emitted via record_to_file, and children of directories are enqueued
under path ++ separator ++ name (avoiding the double separator at the
root). -/
def enumerate_loop {F D : Type} (fs : EngineFs F D) :
    Nat → List Nat → List (Nat × List Char) → List File → List File
  | 0, _, _, out => out
  | _ + 1, _, [], out => out
  | fuel + 1, visited, (id, path) :: rest, out =>
    if id ∈ visited then enumerate_loop fs fuel visited rest out
    else
      let visited1 := id :: visited
      match fs.get_file id with
      | none => enumerate_loop fs fuel visited1 rest out
      | some r =>
        let out1 := out ++ [fs.record_to_file r id path]
        if fs.is_dir r then
          match fs.list_dir r with
          | none => enumerate_loop fs fuel visited1 rest out1
          | some entries =>
            let kids := entries.map fun de =>
              (fs.dir_file_id de,
               if path = fs.path_separator then
                 fs.path_separator ++ fs.dir_name de
               else path ++ fs.path_separator ++ fs.dir_name de)
            enumerate_loop fs fuel visited1 (rest ++ kids) out1
        else enumerate_loop fs fuel visited1 rest out1

/-- enumerate_collect (main.rs line 250), seeded with the root id and
the path separator as root path. -/
def enumerate_collect {F D : Type} (fs : EngineFs F D) (fuel : Nat) : List File :=
  enumerate_loop fs fuel [] [(fs.get_root_file_id, fs.path_separator)] []

/-- The slice reads the streaming adapter issues against its underlying
filesystem and record, reduced to a response function
(offset, want) ↦ result. -/
structure SliceSource where
  read_file_slice : Nat → Nat → Except String (List Nat)

/-- The streaming adapter state (struct FsFileReadSeek, filesystem.rs):
record size, current position, read-ahead cache and its start offset. -/
structure FsFileReadSeek where
  len : Nat
  pos : Nat
  cache : List Nat
  cache_start : Nat
deriving Repr, DecidableEq

/-- FsFileReadSeek::refill_cache (filesystem.rs line 183).  At or past
end-of-file the cache is cleared.  Otherwise min(len - at, CACHE_SIZE)
bytes are requested from the underlying read_file_slice — whose Result
the source unwraps: an Err there is a panic, modelled as none, not a
returned error. -/
def refill_cache (src : SliceSource) (s : FsFileReadSeek) (at_ : Nat) :
    Option FsFileReadSeek :=
  if s.len ≤ at_ then some { s with cache := [], cache_start := at_ }
  else
    let want := min (s.len - at_) CACHE_SIZE
    match src.read_file_slice at_ want with
    | .error _ => none
    | .ok data => some { s with cache_start := at_, cache := data }

/-- The Read implementation of FsFileReadSeek (filesystem.rs line 203),
returning the copied bytes together with the updated state; none models
a panic propagated from refill_cache. -/
def stream_read (src : SliceSource) (s : FsFileReadSeek) (buf_len : Nat) :
    Option (List Nat × FsFileReadSeek) :=
  if buf_len = 0 then some ([], s)
  else if s.len ≤ s.pos then some ([], s)
  else
    let cache_end := satAdd64 s.cache_start s.cache.length
    let covered := s.cache_start ≤ s.pos ∧ s.pos < cache_end
    match (if s.cache.isEmpty ∨ ¬ covered then refill_cache src s s.pos else some s) with
    | none => none
    | some s1 =>
      if s1.cache.isEmpty then some ([], s1)
      else
        let cache_off := s1.pos - s1.cache_start
        let available := s1.cache.length - cache_off
        if available = 0 then some ([], s1)
        else
          let to_copy := min available buf_len
          some ((s1.cache.drop cache_off).take to_copy,
            { s1 with pos := s1.pos + to_copy })

/-- The SeekFrom argument of the Seek implementation. -/
inductive SeekFrom where
  | Start : Nat → SeekFrom
  | Current : Int → SeekFrom
  | FromEnd : Int → SeekFrom
deriving Repr, DecidableEq

/-- The i128 target position computed by Seek::seek (filesystem.rs
lines 240-244). -/
def seek_target (s : FsFileReadSeek) (sf : SeekFrom) : Int :=
  match sf with
  | .Start off => (off : Int)
  | .Current delta => (s.pos : Int) + delta
  | .FromEnd delta => (s.len : Int) + delta

/-- The Seek implementation of FsFileReadSeek (filesystem.rs line 239):
negative targets fail with "seek before start", the non-negative i128
target is cast to u64 (truncating mod 2^64 as in the source), targets
past the record size fail with "seek past end", and on failure the
position is unchanged. -/
def stream_seek (s : FsFileReadSeek) (sf : SeekFrom) :
    Except String Nat × FsFileReadSeek :=
  let t := seek_target s sf
  if t < 0 then (.error "seek before start", s)
  else
    let new_pos := t.toNat % U64
    if s.len < new_pos then (.error "seek past end", s)
    else (.ok new_pos, { s with pos := new_pos })

/-- The claim-side description of an extent covering logical position p. -/
def extentCoversB (e : Extent) (p : Nat) : Bool :=
  decide (e.logical_addr ≤ p ∧ p < e.logical_addr + e.length_bytes)

/-- The claim-side byte value of a slice at logical position p: the
on-disk byte at phys_block * block_size + (p - ext_start) under the
extent covering p, and zero when no extent covers p. -/
def sliceSpecByte (ext : List Extent) (bs : Nat) (disk : Nat → Nat) (p : Nat) : Nat :=
  match ext.find? (fun e => extentCoversB e p) with
  | some e => disk (e.phys_block_num * bs + (p - e.logical_addr))
  | none => 0

/-- The data-model invariant on an extent list: logical ranges of two
extents of the same file are disjoint. -/
def ExtDisjoint (e1 e2 : Extent) : Prop :=
  e1.logical_addr + e1.length_bytes ≤ e2.logical_addr ∨
  e2.logical_addr + e2.length_bytes ≤ e1.logical_addr

instance : DecidablePred fun p : Extent × Extent => ExtDisjoint p.1 p.2 := by
  intro p; unfold ExtDisjoint; infer_instance

instance (e1 e2 : Extent) : Decidable (ExtDisjoint e1 e2) := by
  unfold ExtDisjoint; infer_instance

/-- The claim-side identifier resolution rule of get_file, written from
the spec wording: when both the high byte and the low 56 bits of the id
are non-zero it names (fs_index, inode_id) and resolves in that volume,
falling back to the selected volume when the volume index is not in the
valid list; otherwise the id is a bare inode id against the selected
volume. -/
def resolve_target (fs : ApfsFs) (file_id : Nat) : Nat × Nat :=
  let hi := file_id / 2 ^ 56
  let lo := file_id % 2 ^ 56
  if hi ≠ 0 ∧ lo ≠ 0 then
    if (fs.volume_by_index hi).isSome then (hi, lo)
    else (fs.selected_fs_index, file_id)
  else (fs.selected_fs_index, file_id)

/-- A content-free normalized record used by dispatch-layer witnesses. -/
def trivFile : File :=
  ⟨none, 0, [], [], [], 0, none, none, none, none, none, none⟩

/-- C1 counterexample fixture: a non-directory inode declaring size
2^64 - 1 with no extents. -/
def cxInode : InodeVal :=
  ⟨0o100644, 2 ^ 64 - 1, 0, 0, 0, 0, 0, 0, none⟩

/-- C1 counterexample fixture: the volume tree holding cxInode at id 2. -/
def cxTree : FsTree :=
  ⟨fun n => if n = 2 then some cxInode else none, fun _ => [],
   fun _ => none, fun _ => none⟩

/-- C1 counterexample fixture: a single-volume adapter over cxTree. -/
def cxFs : ApfsFs :=
  ⟨[(0, 2)], 0, fun n => if n = 0 then some cxTree else none, 4096, fun _ => 0⟩

/-- C1 counterexample fixture: the record for cxInode. -/
def cxRec : ApfsFileRecord := ⟨0, 2, cxInode⟩

/-- C1 witness fixture: a regular file of declared size 100 with one
4096-byte extent at logical offset 0, physical block 100. -/
def w1Inode : InodeVal :=
  ⟨0o100644, 100, 0, 1000000000, 2000000000, 0, 501, 20, none⟩

/-- C1 witness fixture: the volume tree for w1Inode at id 2. -/
def w1Tree : FsTree :=
  ⟨fun n => if n = 2 then some w1Inode else none,
   fun n => if n = 2 then [⟨0, 100, 4096⟩] else [],
   fun _ => none, fun _ => none⟩

/-- C1 witness fixture: the adapter over w1Tree. -/
def w1Fs : ApfsFs :=
  ⟨[(0, 2)], 0, fun n => if n = 0 then some w1Tree else none, 4096,
   fun n => n % 251⟩

/-- C1 witness fixture: the record for w1Inode. -/
def w1Rec : ApfsFileRecord := ⟨0, 2, w1Inode⟩

/-- C2 witness fixture: a regular file declaring size 1 GiB, no extents. -/
def w2Inode : InodeVal :=
  ⟨0o100644, 2 ^ 30, 0, 0, 0, 0, 0, 0, none⟩

/-- C2 witness fixture: the volume tree for w2Inode at id 2. -/
def w2Tree : FsTree :=
  ⟨fun n => if n = 2 then some w2Inode else none, fun _ => [],
   fun _ => none, fun _ => none⟩

/-- C2 witness fixture: the adapter over w2Tree. -/
def w2Fs : ApfsFs :=
  ⟨[(0, 2)], 0, fun n => if n = 0 then some w2Tree else none, 4096, fun _ => 0⟩

/-- C2 witness fixture: the record for w2Inode. -/
def w2Rec : ApfsFileRecord := ⟨0, 2, w2Inode⟩

/-- C3 witness fixture: an ordinary inode stored in the trees below. -/
def wC3Inode : InodeVal :=
  ⟨0o100644, 7, 0, 0, 0, 0, 0, 0, none⟩

/-- C3 witness fixture: the tree of the selected volume 0, which holds
no inodes and no private-id mappings. -/
def wC3Tree0 : FsTree :=
  ⟨fun _ => none, fun _ => [], fun _ => none, fun _ => none⟩

/-- C3 witness fixture: the tree of volume 3, holding wC3Inode at id 7. -/
def wC3Tree3 : FsTree :=
  ⟨fun n => if n = 7 then some wC3Inode else none, fun _ => [],
   fun _ => none, fun _ => none⟩

/-- C3 witness fixture: a two-volume adapter (indices 0 and 3). -/
def wC3Fs : ApfsFs :=
  ⟨[(0, 2), (3, 9)], 0,
   fun n => if n = 0 then some wC3Tree0 else if n = 3 then some wC3Tree3 else none,
   4096, fun _ => 0⟩

/-- C7 witness fixture: a directory inode. -/
def w7DirInode : InodeVal :=
  ⟨0o040755, 0, 0, 0, 0, 0, 0, 0, none⟩

/-- C7 witness fixture: a regular-file inode. -/
def w7FileInode : InodeVal :=
  ⟨0o100644, 4, 0, 0, 0, 0, 0, 0, none⟩

/-- C7 witness fixture: root directory 2 with one child 3 named a. -/
def w7Tree : FsTree :=
  ⟨fun n => if n = 2 then some w7DirInode else if n = 3 then some w7FileInode else none,
   fun _ => [],
   fun _ => none,
   fun n => if n = 2 then some [⟨some 3, ['a'], 10, 0, 0⟩] else none⟩

/-- C7 witness fixture: a single-volume adapter over w7Tree. -/
def w7Afs : ApfsFs :=
  ⟨[(0, 2)], 0, fun n => if n = 0 then some w7Tree else none, 4096, fun _ => 0⟩

/-- C7 witness fixture: a small abstract filesystem for the generic
engine — root 1 is a directory with one child 2 named a. -/
def w7Engine : EngineFs Nat Nat :=
  { path_separator := ['/']
    get_root_file_id := 1
    get_file := fun id => if id ≤ 2 then some id else none
    is_dir := fun r => r == 1
    list_dir := fun r => if r = 1 then some [2] else none
    dir_file_id := fun d => d
    dir_name := fun _ => ['a']
    record_to_file := fun _ id p =>
      ⟨none, id, p, [], [], 0, none, none, none, none, none, none⟩ }

/-- C8 fixture: an APFS inode whose create / mod / access times are all
zero, i.e. absent. -/
def c8Inode : InodeVal :=
  ⟨0o100644, 9, 0, 0, 0, 0, 0, 0, none⟩

/-- C8 fixture: a minimal adapter value (record_to_file reads nothing
from the adapter state). -/
def c8Fs : ApfsFs := ⟨[(0, 2)], 0, fun _ => none, 4096, fun _ => 0⟩

/-- C9 fixture: an underlying filesystem whose slice reads always fail. -/
def c9Src : SliceSource := ⟨fun _ _ => .error "I/O error"⟩

theorem lor_mul_pow_add (k : Nat) : ∀ a b : Nat, b < 2 ^ k →
    (a * 2 ^ k) ||| b = a * 2 ^ k + b := by
  induction k with
  | zero =>
    intro a b hb
    have hb0 : b = 0 := Nat.lt_one_iff.mp hb
    subst hb0
    simp
  | succ k ih =>
    intro a b hb
    have hb2 : b / 2 < 2 ^ k := by
      have := Nat.pow_succ 2 k
      omega
    have hdiv : ((a * 2 ^ (k + 1)) ||| b) / 2 = (a * 2 ^ k) ||| (b / 2) := by
      have h1 : a * 2 ^ (k + 1) = a * 2 ^ k * 2 := by
        rw [Nat.pow_succ, Nat.mul_assoc]
      rw [Nat.or_div_two, h1, Nat.mul_div_cancel _ (by omega)]
    have hpar : (a * 2 ^ (k + 1)) % 2 = 0 := by
      have h1 : a * 2 ^ (k + 1) = a * 2 ^ k * 2 := by
        rw [Nat.pow_succ, Nat.mul_assoc]
      rw [h1]
      exact Nat.mul_mod_left _ 2
    have hmod : ((a * 2 ^ (k + 1)) ||| b) % 2 = b % 2 := by
      rcases Nat.mod_two_eq_zero_or_one b with h | h
      · rcases Nat.mod_two_eq_zero_or_one ((a * 2 ^ (k + 1)) ||| b) with h2 | h2
        · omega
        · have := (Nat.or_mod_two_eq_one).mp h2
          omega
      · have h2 : ((a * 2 ^ (k + 1)) ||| b) % 2 = 1 :=
          (Nat.or_mod_two_eq_one).mpr (Or.inr h)
        omega
    have hx := Nat.div_add_mod ((a * 2 ^ (k + 1)) ||| b) 2
    have hih := ih a (b / 2) hb2
    have hfin : 2 * (a * 2 ^ k + b / 2) + b % 2 = a * 2 ^ (k + 1) + b := by
      have h1 : a * 2 ^ (k + 1) = a * 2 ^ k * 2 := by
        rw [Nat.pow_succ, Nat.mul_assoc]
      omega
    omega

theorem mask_eq_two_pow_sub_one : PACKED_INODE_MASK = 2 ^ 56 - 1 := by
  unfold PACKED_INODE_MASK
  norm_num

theorem and_mask_eq_mod (v : Nat) : v &&& PACKED_INODE_MASK = v % 2 ^ 56 := by
  rw [mask_eq_two_pow_sub_one, Nat.and_pow_two_sub_one_eq_mod]

theorem shiftRight56_eq_div (v : Nat) : v >>> 56 = v / 2 ^ 56 :=
  Nat.shiftRight_eq_div_pow v 56

theorem pack_identifier_eq (f i : Nat) :
    pack_identifier f i = f % 256 * 2 ^ 56 + i % 2 ^ 56 := by
  unfold pack_identifier
  rw [and_mask_eq_mod, Nat.shiftLeft_eq]
  have h3 : U64 = 256 * 2 ^ 56 := by unfold U64; norm_num
  have h4 : f * 2 ^ 56 % U64 = f % 256 * 2 ^ 56 := by
    rw [h3, Nat.mul_mod_mul_right]
  rw [h4]
  exact lor_mul_pow_add 56 (f % 256) (i % 2 ^ 56)
    (Nat.mod_lt i (Nat.pos_pow_of_pos 56 (by omega)))

theorem pack_identifier_div (f i : Nat) :
    pack_identifier f i / 2 ^ 56 = f % 256 := by
  have hp : (0:Nat) < 2 ^ 56 := Nat.pos_pow_of_pos 56 (by omega)
  rw [pack_identifier_eq, Nat.mul_comm (f % 256) (2 ^ 56), Nat.add_comm,
    Nat.add_mul_div_left _ _ hp, Nat.div_eq_of_lt (Nat.mod_lt i hp),
    Nat.zero_add]

theorem pack_identifier_mod (f i : Nat) :
    pack_identifier f i % 2 ^ 56 = i % 2 ^ 56 := by
  rw [pack_identifier_eq, Nat.mul_comm (f % 256) (2 ^ 56), Nat.mul_add_mod]
  exact Nat.mod_mod_of_dvd i dvd_rfl

theorem unpack_identifier_eq (v : Nat) :
    unpack_identifier v =
      if 0 < v / 2 ^ 56 ∧ 0 < v % 2 ^ 56 then some (v / 2 ^ 56, v % 2 ^ 56)
      else none := by
  unfold unpack_identifier
  rw [shiftRight56_eq_div, and_mask_eq_mod]
  by_cases h1 : 0 < v / 2 ^ 56 <;> by_cases h2 : 0 < v % 2 ^ 56 <;>
    simp [h1, h2]

/-- Claim C4: for fs in [1, 255] and id in [1, 2^56 - 1] the packed
identifier round-trips through unpack; any 64-bit value whose high byte
(value / 2^56) is zero or whose low 56 bits (value % 2^56) are zero
fails to unpack; in particular pack(0, id) fails to unpack and is hence
treated as a bare inode id. -/
theorem c4_pack_unpack_roundtrip (f i v : Nat)
    (hf1 : 1 ≤ f) (hf2 : f ≤ 255) (hi1 : 1 ≤ i) (hi2 : i ≤ 2 ^ 56 - 1) :
    unpack_identifier (pack_identifier f i) = some (f, i) ∧
    (v / 2 ^ 56 = 0 ∨ v % 2 ^ 56 = 0 → unpack_identifier v = none) ∧
    unpack_identifier (pack_identifier 0 i) = none := by
  have hp56 : (0:Nat) < 2 ^ 56 := Nat.pos_pow_of_pos 56 (by omega)
  have hilt : i < 2 ^ 56 := by omega
  refine ⟨?_, ?_, ?_⟩
  · rw [unpack_identifier_eq, pack_identifier_div, pack_identifier_mod,
      Nat.mod_eq_of_lt (by omega : f < 256), Nat.mod_eq_of_lt hilt,
      if_pos ⟨by omega, by omega⟩]
  · intro hv
    rw [unpack_identifier_eq, if_neg (by omega)]
  · rw [unpack_identifier_eq, pack_identifier_div, pack_identifier_mod,
      if_neg (by omega)]

/-- Witness for C4 at fs = 3, id = 42 and at the value 2^56 whose low 56
bits are zero. -/
theorem c4_witness :
    (1 ≤ 3 ∧ 3 ≤ 255 ∧ 1 ≤ 42 ∧ 42 ≤ 2 ^ 56 - 1) ∧
    unpack_identifier (pack_identifier 3 42) = some (3, 42) ∧
    unpack_identifier (2 ^ 56) = none ∧
    unpack_identifier (pack_identifier 0 42) = none := by
  have h := c4_pack_unpack_roundtrip 3 42 (2 ^ 56) (by omega) (by omega)
    (by omega) (by norm_num)
  exact ⟨⟨by omega, by omega, by omega, by norm_num⟩, h.1,
    h.2.1 (Or.inr (by norm_num)), h.2.2⟩

/-- Counterexample for C6: the FILETIME value 132514560000000000 does
not normalize to the claimed Unix second 1606867200. -/
theorem c6_counterexample :
    filetime_to_unix_secs 132514560000000000 ≠ 1606867200 := by
  decide

/-- Claim C6 (amended): the NT adapter converts a FILETIME to Unix
seconds by dividing by 10^7 and subtracting 11644473600, saturating at
zero; the $STANDARD_INFORMATION mft_modified value 132514560000000000
normalizes to Unix second 1606982400 (not 1606867200 as claimed). -/
theorem c6_filetime_conversion :
    (∀ ft : Nat, (filetime_to_unix_secs ft : Int) =
      max ((ft : Int) / 10000000 - 11644473600) 0) ∧
    filetime_to_unix_secs 132514560000000000 = 1606982400 := by
  constructor
  · intro ft
    unfold filetime_to_unix_secs
    have h1 : ((ft / 10000000 : Nat) : Int) = (ft : Int) / 10000000 :=
      Int.natCast_div ft 10000000
    rw [← h1]
    omega
  · decide

/-- Claim C8 at the failing input: an APFS inode whose create / mod /
access times are all zero (absent) is normalized by the APFS adapter to
created = modified = accessed = some 0 — the zero epoch, not null —
while the NT adapter maps an all-zero FILETIME triple to
(none, none, none) as the claim describes. -/
theorem c8_apfs_missing_times_not_null :
    (ApfsFs.record_to_file c8Fs ⟨0, 2, c8Inode⟩ 2 ['/', 'a']).created = some 0 ∧
    (ApfsFs.record_to_file c8Fs ⟨0, 2, c8Inode⟩ 2 ['/', 'a']).modified = some 0 ∧
    (ApfsFs.record_to_file c8Fs ⟨0, 2, c8Inode⟩ 2 ['/', 'a']).accessed = some 0 ∧
    (ApfsFs.record_to_file c8Fs ⟨0, 2, c8Inode⟩ 2 ['/', 'a']).created ≠ none ∧
    ntfs_normalize_times ⟨0, 0, 0⟩ = (none, none, none) := by
  refine ⟨rfl, rfl, rfl, by decide, rfl⟩

/-- Claim C9 at the failing input: a stream over a 10-byte record at
position 0 with an empty cache, whose underlying read_file_slice fails.
The Read implementation must refill the cache; refill_cache unwraps the
failed slice read, so the read panics (modelled as none) instead of
returning the error to the caller. -/
theorem c9_refill_unwrap_panics :
    stream_read c9Src ⟨10, 0, [], 0⟩ 4 = none ∧
    refill_cache c9Src ⟨10, 0, [], 0⟩ 0 = none := by
  exact ⟨rfl, rfl⟩

/-- Counterexample for C10: over a record of size 2^64 - 1 at position
5, seeking from the end by +1 computes the target 2^64, which is
strictly greater than the record size, yet the seek succeeds — the cast
of the i128 target to u64 wraps it to 0 — instead of failing with
"seek past end". -/
theorem c10_counterexample :
    ((⟨2 ^ 64 - 1, 5, [], 0⟩ : FsFileReadSeek).len : Int) <
      seek_target ⟨2 ^ 64 - 1, 5, [], 0⟩ (.FromEnd 1) ∧
    stream_seek ⟨2 ^ 64 - 1, 5, [], 0⟩ (.FromEnd 1) =
      (.ok 0, ⟨2 ^ 64 - 1, 0, [], 0⟩) := by
  constructor
  · show ((2:Int) ^ 64 - 1) < 2 ^ 64 - 1 + 1
    omega
  · rfl

/-- Claim C10 (amended): for any computed seek target below 2^64, a
negative target fails with "seek before start", a target strictly above
the record size fails with "seek past end", and a target equal to the
record size succeeds, after which a read returns 0 bytes; on any seek
failure the stream state (in particular the position) is unchanged.
Targets at or above 2^64 are truncated modulo 2^64 by the u64 cast
before the past-end check, as the counterexample shows. -/
theorem c10_seek_semantics (s : FsFileReadSeek) (sf : SeekFrom)
    (ht : seek_target s sf < (U64 : Int)) :
    (seek_target s sf < 0 → stream_seek s sf = (.error "seek before start", s)) ∧
    (0 ≤ seek_target s sf → (s.len : Int) < seek_target s sf →
      stream_seek s sf = (.error "seek past end", s)) ∧
    (seek_target s sf = (s.len : Int) →
      stream_seek s sf = (.ok s.len, { s with pos := s.len }) ∧
      ∀ src buf_len, stream_read src { s with pos := s.len } buf_len =
        some ([], { s with pos := s.len })) := by
  refine ⟨?_, ?_, ?_⟩
  · intro hneg
    unfold stream_seek
    rw [if_pos hneg]
  · intro hnn hpast
    unfold stream_seek
    rw [if_neg (by omega)]
    have hmod : (seek_target s sf).toNat % U64 = (seek_target s sf).toNat := by
      apply Nat.mod_eq_of_lt
      unfold U64 at ht ⊢
      omega
    rw [hmod, if_pos (by omega)]
  · intro heq
    have hlt : (seek_target s sf).toNat < U64 := by
      unfold U64 at ht ⊢
      omega
    have hmod : (seek_target s sf).toNat % U64 = s.len := by
      rw [Nat.mod_eq_of_lt hlt]
      omega
    constructor
    · unfold stream_seek
      rw [if_neg (by omega), hmod, if_neg (by omega)]
    · intro src buf_len
      unfold stream_read
      by_cases hb : buf_len = 0
      · rw [if_pos hb]
      · rw [if_neg hb, if_pos (by simp)]

/-- Witness for C10 over a 10-byte record at position 3: seeking to
Start 10 — exactly the record size — succeeds and a subsequent read
returns 0 bytes. -/
theorem c10_witness :
    stream_seek ⟨10, 3, [], 0⟩ (.Start 10) = (.ok 10, ⟨10, 10, [], 0⟩) ∧
    ∀ src buf_len, stream_read src ⟨10, 10, [], 0⟩ buf_len =
      some ([], ⟨10, 10, [], 0⟩) := by
  have h := (c10_seek_semantics ⟨10, 3, [], 0⟩ (.Start 10)
    (by unfold U64; norm_num [seek_target])).2.2 (by norm_num [seek_target])
  exact ⟨h.1, h.2⟩

/-- Counterexample for C5: on a cross-variant pairing (an Extended
filesystem with an NT record), record_to_file does not report the
variant mismatch as an error — having no error channel, the source arm
is unreachable!, a panic (modelled as none). -/
theorem c5_counterexample :
    detected_record_to_file (fun _ _ _ _ => trivFile) (fun _ _ _ _ => trivFile)
      (fun _ _ _ _ => trivFile) (fun _ _ _ _ => trivFile)
      (DetectedFs.Ext () : DetectedFs Unit Unit Unit Unit)
      (DetectedFile.Ntfs () : DetectedFile Unit Unit Unit Unit)
      1 ['/'] = none := rfl

/-- Claim C5 (amended): for every cross-variant pairing of a detected
filesystem and a detected record, the four fallible dispatch operations
read_file_content, read_file_prefix, read_file_slice and list_dir
return the error "filesystem / record variant mismatch" — independently
of the adapter handlers, hence without touching the byte source — while
record_to_file, which has no error channel, panics (unreachable!) with
that message instead of reporting it as an error. -/
theorem c5_dispatch_mismatch {E N X A IE IN IX IA DE DN DX DA : Type}
    (cE : E → IE → Except String (List Nat))
    (cN : N → IN → Except String (List Nat))
    (cX : X → IX → Except String (List Nat))
    (cA : A → IA → Except String (List Nat))
    (pE : E → IE → Nat → Except String (List Nat))
    (pN : N → IN → Nat → Except String (List Nat))
    (pX : X → IX → Nat → Except String (List Nat))
    (pA : A → IA → Nat → Except String (List Nat))
    (sE : E → IE → Nat → Nat → Except String (List Nat))
    (sN : N → IN → Nat → Nat → Except String (List Nat))
    (sX : X → IX → Nat → Nat → Except String (List Nat))
    (sA : A → IA → Nat → Nat → Except String (List Nat))
    (lE : E → IE → Except String (List DE))
    (lN : N → IN → Except String (List DN))
    (lX : X → IX → Except String (List DX))
    (lA : A → IA → Except String (List DA))
    (rE : E → IE → Nat → List Char → File)
    (rN : N → IN → Nat → List Char → File)
    (rX : X → IX → Nat → List Char → File)
    (rA : A → IA → Nat → List Char → File)
    (fs : DetectedFs E N X A) (rec : DetectedFile IE IN IX IA)
    (offset length n : Nat) (path : List Char)
    (hmm : variantAgrees fs rec = false) :
    detected_read_file_content cE cN cX cA fs rec = .error mismatchMsg ∧
    detected_read_file_prefix pE pN pX pA fs rec length = .error mismatchMsg ∧
    detected_read_file_slice sE sN sX sA fs rec offset length = .error mismatchMsg ∧
    detected_list_dir lE lN lX lA fs rec = .error mismatchMsg ∧
    detected_record_to_file rE rN rX rA fs rec n path = none := by
  cases fs <;> cases rec <;>
    simp_all [variantAgrees, detected_read_file_content,
      detected_read_file_prefix, detected_read_file_slice,
      detected_list_dir, detected_record_to_file]

/-- Witness for C5: an Extended filesystem paired with an NT record is
a mismatch, and every dispatch operation reports it. -/
theorem c5_witness :
    @variantAgrees Unit Unit Unit Unit Unit Unit Unit Unit
      (DetectedFs.Ext ()) (DetectedFile.Ntfs ()) = false ∧
    (@detected_read_file_content Unit Unit Unit Unit Unit Unit Unit Unit
        (fun _ _ => .ok []) (fun _ _ => .ok []) (fun _ _ => .ok [])
        (fun _ _ => .ok [])
        (DetectedFs.Ext ()) (DetectedFile.Ntfs ()) = .error mismatchMsg ∧
      detected_read_file_prefix (fun _ _ _ => .ok []) (fun _ _ _ => .ok [])
        (fun _ _ _ => .ok []) (fun _ _ _ => .ok [])
        (DetectedFs.Ext () : DetectedFs Unit Unit Unit Unit)
        (DetectedFile.Ntfs () : DetectedFile Unit Unit Unit Unit) 7 =
        .error mismatchMsg ∧
      @detected_read_file_slice Unit Unit Unit Unit Unit Unit Unit Unit
        (fun _ _ _ _ => .ok []) (fun _ _ _ _ => .ok []) (fun _ _ _ _ => .ok [])
        (fun _ _ _ _ => .ok [])
        (DetectedFs.Ext ()) (DetectedFile.Ntfs ()) 3 7 = .error mismatchMsg ∧
      @detected_list_dir Unit Unit Unit Unit Unit Unit Unit Unit
          Unit Unit Unit Unit
        (fun _ _ => .ok []) (fun _ _ => .ok []) (fun _ _ => .ok [])
        (fun _ _ => .ok [])
        (DetectedFs.Ext ()) (DetectedFile.Ntfs ()) = .error mismatchMsg ∧
      @detected_record_to_file Unit Unit Unit Unit Unit Unit Unit Unit
        (fun _ _ _ _ => trivFile) (fun _ _ _ _ => trivFile)
        (fun _ _ _ _ => trivFile) (fun _ _ _ _ => trivFile)
        (DetectedFs.Ext ()) (DetectedFile.Ntfs ()) 1 ['/'] = none) := by
  refine ⟨rfl, ?_⟩
  exact c5_dispatch_mismatch _ _ _ _ _ _ _ _ _ _ _ _ _ _ _ _ _ _ _ _
    (DetectedFs.Ext ()) (DetectedFile.Ntfs ()) 3 7 1 ['/'] rfl

theorem get_file_target_eq (fs : ApfsFs) (file_id : Nat) :
    get_file_target fs file_id = resolve_target fs file_id := by
  unfold get_file_target resolve_target
  rw [unpack_identifier_eq]
  by_cases h1 : 0 < file_id / 2 ^ 56 ∧ 0 < file_id % 2 ^ 56
  · rw [if_pos h1, if_pos (by omega : file_id / 2 ^ 56 ≠ 0 ∧ file_id % 2 ^ 56 ≠ 0)]
  · rw [if_neg h1, if_neg (by omega : ¬ (file_id / 2 ^ 56 ≠ 0 ∧ file_id % 2 ^ 56 ≠ 0))]

/-- Claim C3: get_file resolves a packed id naming a known volume in
that volume, falls back to the selected volume (with the whole id as a
bare inode id) when the volume index is unknown, and treats an id whose
high byte or low 56 bits are zero as a bare inode id against the
selected volume (this is resolve_target, written from the spec).  In
the chosen volume tree the lookup is by inode id first and then via the
private-id mapping, and the "inode not found" error is produced exactly
when both lookups find nothing. -/
theorem c3_get_file_resolution (fs : ApfsFs) (file_id : Nat) (fst : FsTree)
    (hfst : fs.get_fstree (resolve_target fs file_id).1 = .ok fst) :
    (∀ r, fs.get_file file_id = .ok r →
      r.fs_index = (resolve_target fs file_id).1 ∧
      ((fst.inode_by_id (resolve_target fs file_id).2 = some r.inode ∧
          r.inode_id = (resolve_target fs file_id).2) ∨
        (fst.inode_by_id (resolve_target fs file_id).2 = none ∧
          fst.inode_id_by_private_id (resolve_target fs file_id).2 = some r.inode_id ∧
          fst.inode_by_id r.inode_id = some r.inode))) ∧
    (fs.get_file file_id =
        .error (inodeNotFoundMsg (resolve_target fs file_id).2
          (resolve_target fs file_id).1) ↔
      (fst.inode_by_id (resolve_target fs file_id).2 = none ∧
        ∀ m, fst.inode_id_by_private_id (resolve_target fs file_id).2 = some m →
          fst.inode_by_id m = none)) := by
  unfold ApfsFs.get_file
  rw [get_file_target_eq, hfst]
  cases hq : fst.inode_by_id (resolve_target fs file_id).2 with
  | some inode =>
    simp only [hq]
    refine ⟨?_, ?_⟩
    · intro r hr
      obtain rfl := Except.ok.inj hr
      exact ⟨rfl, Or.inl ⟨rfl, rfl⟩⟩
    · constructor
      · intro h
        exact absurd h (by simp)
      · intro h
        exact absurd h.1 (by simp)
  | none =>
    cases hp : fst.inode_id_by_private_id (resolve_target fs file_id).2 with
    | some m =>
      cases hm : fst.inode_by_id m with
      | some inode =>
        simp only [hq, hp, hm]
        refine ⟨?_, ?_⟩
        · intro r hr
          obtain rfl := Except.ok.inj hr
          exact ⟨rfl, Or.inr ⟨trivial, rfl, hm⟩⟩
        · constructor
          · intro h
            exact absurd h (by simp)
          · intro h
            have h2 := h.2 m rfl
            rw [h2] at hm
            exact absurd hm (by simp)
      | none =>
        simp only [hq, hp, hm]
        refine ⟨?_, ?_⟩
        · intro r hr
          exact absurd hr (by simp)
        · constructor
          · intro _
            refine ⟨trivial, ?_⟩
            intro m2 hm2
            obtain rfl := Option.some.inj hm2
            exact hm
          · intro _
            trivial
    | none =>
      simp only [hq, hp]
      refine ⟨?_, ?_⟩
      · intro r hr
        exact absurd hr (by simp)
      · constructor
        · intro _
          exact ⟨trivial, fun m2 hm2 => absurd hm2 (by simp)⟩
        · intro _
          trivial

/-- Witness for C3: over the two-volume fixture, the bare id 999 (high
byte zero) resolves against the selected volume 0, where both lookups
find nothing, so get_file fails with the "inode not found" error. -/
theorem c3_witness :
    wC3Fs.get_fstree (resolve_target wC3Fs 999).1 = .ok wC3Tree0 ∧
    wC3Fs.get_file 999 = .error (inodeNotFoundMsg 999 0) := by
  have h := c3_get_file_resolution wC3Fs 999 wC3Tree0 rfl
  refine ⟨rfl, ?_⟩
  exact h.2.mpr ⟨rfl, fun m hm => by exact absurd hm (by simp [wC3Tree0])⟩

theorem satAdd64_eq (a b : Nat) : satAdd64 a b = min (a + b) (2 ^ 64 - 1) := rfl

theorem foldl_max_sat_le (l : List Extent) : ∀ acc, acc ≤ U64 - 1 →
    l.foldl (fun m e => max m (satAdd64 e.logical_addr e.length_bytes)) acc ≤
      U64 - 1 := by
  induction l with
  | nil => intro acc h; exact h
  | cons e t ih =>
    intro acc h
    refine ih _ ?_
    show max acc (satAdd64 e.logical_addr e.length_bytes) ≤ U64 - 1
    unfold satAdd64 U64
    unfold U64 at h
    omega

theorem effective_size_lt_u64 (fst : FsTree) (r : ApfsFileRecord)
    (h : r.size < U64) : effective_size fst r < U64 := by
  unfold effective_size
  have hb := foldl_max_sat_le (fileExtentsWithFallback fst r) 0
    (by unfold U64; omega)
  dsimp only
  split
  · unfold U64 at *
    omega
  · exact h

theorem effective_size_ge_declared (fst : FsTree) (r : ApfsFileRecord) :
    r.size ≤ effective_size fst r := by
  unfold effective_size
  dsimp only
  split
  · omega
  · exact Nat.le_refl _

theorem writeExtent_spec (bs : Nat) (disk : Nat → Nat) (offset endPos : Nat)
    (hend : endPos ≤ U64 - 1) (e : Extent) (b : Nat → Nat)
    (hphys : e.phys_block_num * bs + e.length_bytes < U64) :
    ∃ g, writeExtent bs disk offset endPos b e = .ok g ∧
      ∀ i, offset + i < endPos →
        g i = if extentCoversB e (offset + i) = true then
                disk (e.phys_block_num * bs + (offset + i - e.logical_addr))
              else b i := by
  unfold U64 at hphys hend
  have hm1 : checkedMul64 e.phys_block_num bs = some (e.phys_block_num * bs) := by
    unfold checkedMul64 U64
    rw [if_pos (by omega)]
  simp only [writeExtent, satAdd64, U64]
  split
  · next hskip =>
    refine ⟨b, rfl, ?_⟩
    intro i hi
    rw [if_neg ?_]
    intro hcov
    unfold extentCoversB at hcov
    rw [decide_eq_true_eq] at hcov
    omega
  · next hskip =>
    have hm2 : checkedAdd64 (e.phys_block_num * bs)
        (max e.logical_addr offset - e.logical_addr) =
        some (e.phys_block_num * bs + (max e.logical_addr offset - e.logical_addr)) := by
      unfold checkedAdd64 U64
      rw [if_pos (by omega)]
    simp only [hm1, hm2]
    refine ⟨_, rfl, ?_⟩
    intro i hi
    by_cases hcov : extentCoversB e (offset + i) = true
    · rw [if_pos hcov]
      unfold extentCoversB at hcov
      rw [decide_eq_true_eq] at hcov
      rw [if_pos (by omega)]
      congr 1
      omega
    · rw [if_neg hcov]
      unfold extentCoversB at hcov
      rw [decide_eq_true_eq] at hcov
      rw [if_neg (by omega)]

theorem writeExtents_spec (bs : Nat) (disk : Nat → Nat) (offset endPos : Nat)
    (hend : endPos ≤ U64 - 1) :
    ∀ (l : List Extent) (b : Nat → Nat),
      (∀ e ∈ l, e.phys_block_num * bs + e.length_bytes < U64) →
      l.Pairwise ExtDisjoint →
      ∃ g, writeExtents bs disk offset endPos l b = .ok g ∧
        ∀ i, offset + i < endPos →
          g i = match l.find? (fun e => extentCoversB e (offset + i)) with
                | some e => disk (e.phys_block_num * bs + (offset + i - e.logical_addr))
                | none => b i := by
  intro l
  induction l with
  | nil =>
    intro b _ _
    exact ⟨b, rfl, fun i _ => rfl⟩
  | cons e t ih =>
    intro b hphys hdisj
    obtain ⟨g1, hg1, hv1⟩ :=
      writeExtent_spec bs disk offset endPos hend e b (hphys e (by simp))
    obtain ⟨g, hg, hv⟩ := ih g1 (fun e2 he2 => hphys e2 (by simp [he2]))
      (List.pairwise_cons.mp hdisj).2
    refine ⟨g, ?_, ?_⟩
    · simp only [writeExtents, hg1]
      exact hg
    · intro i hi
      have hv1i := hv1 i hi
      have hvi := hv i hi
      by_cases hcov : extentCoversB e (offset + i) = true
      · rw [@List.find?_cons_of_pos _ (fun e2 => extentCoversB e2 (offset + i)) e t hcov]
        have htnone : t.find? (fun e2 => extentCoversB e2 (offset + i)) = none := by
          rw [List.find?_eq_none]
          intro e2 he2 hcov2
          have hd : ExtDisjoint e e2 := (List.pairwise_cons.mp hdisj).1 e2 he2
          unfold extentCoversB at hcov hcov2
          rw [decide_eq_true_eq] at hcov hcov2
          unfold ExtDisjoint at hd
          omega
        rw [htnone] at hvi
        have hvi2 : g i = g1 i := hvi
        rw [hvi2, hv1i, if_pos hcov]
      · rw [@List.find?_cons_of_neg _ (fun e2 => extentCoversB e2 (offset + i)) e t hcov]
        have hb1 : g1 i = b i := by
          rw [hv1i, if_neg hcov]
        cases hfind : t.find? (fun e2 => extentCoversB e2 (offset + i)) with
        | some e2 =>
          rw [hfind] at hvi
          exact hvi
        | none =>
          rw [hfind] at hvi
          have hvi2 : g i = g1 i := hvi
          exact hvi2.trans hb1

theorem read_slice_with_size_spec (fs : ApfsFs) (r : ApfsFileRecord)
    (fst : FsTree) (O L S : Nat)
    (hfst : fs.get_fstree r.fs_index = .ok fst)
    (hdir : is_dir_mode r.inode.mode = false)
    (hS : S < U64)
    (hO : O ≤ S)
    (hwrap : O + MAX_READ_BYTES < U64)
    (hdisj : (fileExtentsWithFallback fst r).Pairwise ExtDisjoint)
    (hphys : ∀ e ∈ fileExtentsWithFallback fst r,
      e.phys_block_num * fs.block_size + e.length_bytes < U64) :
    ∃ out, read_file_slice_with_size fs r O L S = .ok out ∧
      out.length = min L (min (S - O) MAX_READ_BYTES) ∧
      ∀ i, i < out.length →
        out.getD i 0 =
          sliceSpecByte (fileExtentsWithFallback fst r) fs.block_size fs.disk
            (O + i) := by
  unfold read_file_slice_with_size
  by_cases hL : L = 0
  · rw [if_pos hL]
    refine ⟨[], rfl, ?_, ?_⟩
    · subst hL
      simp
    · intro i hi
      simp at hi
  · rw [if_neg hL, if_neg (by simp [hdir])]
    by_cases hOS : S ≤ O
    · rw [if_pos hOS]
      have hOeq : S - O = 0 := by omega
      refine ⟨[], rfl, ?_, ?_⟩
      · simp only [List.length_nil]
        omega
      · intro i hi
        simp at hi
    · rw [if_neg hOS]
      obtain ⟨g, hg, hv⟩ := writeExtents_spec fs.block_size fs.disk O
        (min (min (satAdd64 O L) S) (wrapAdd64 O MAX_READ_BYTES))
        (by unfold satAdd64 wrapAdd64 U64; omega)
        (fileExtentsWithFallback fst r) (fun _ => 0) hphys hdisj
      simp only [hfst, hg]
      refine ⟨_, rfl, ?_, ?_⟩
      · simp only [List.length_map, List.length_range]
        unfold satAdd64 wrapAdd64 U64 at *
        omega
      · intro i hi
        simp only [List.length_map, List.length_range] at hi
        have hgetd : ((List.range
            (min (min (satAdd64 O L) S) (wrapAdd64 O MAX_READ_BYTES) - O)).map
              g).getD i 0 = g i := by
          rw [List.getD_eq_getElem?_getD, List.getElem?_map, List.getElem?_range hi]
          rfl
        rw [hgetd]
        have hvi := hv i (by omega)
        rw [hvi]
        unfold sliceSpecByte
        rfl

/-- Claim C1 (amended): for a non-directory record with effective size S,
any offset O ≤ S and length L, provided the offset window does not wrap
u64 (O + 512 MiB < 2^64), the extent list is range-disjoint (the stated
data-model invariant) and its physical arithmetic does not overflow u64,
read_file_slice succeeds with exactly min(L, S - O, 512 MiB) bytes,
where each byte at logical position p is the on-disk byte at
phys_block * block_size + (p - ext_start) when an extent covers p and
zero otherwise. -/
theorem c1_read_file_slice_reconstruction (fs : ApfsFs) (r : ApfsFileRecord)
    (fst : FsTree) (O L : Nat)
    (hfst : fs.get_fstree r.fs_index = .ok fst)
    (hdir : is_dir_mode r.inode.mode = false)
    (hsz : r.size < U64)
    (hO : O ≤ effective_size fst r)
    (hwrap : O + MAX_READ_BYTES < U64)
    (hdisj : (fileExtentsWithFallback fst r).Pairwise ExtDisjoint)
    (hphys : ∀ e ∈ fileExtentsWithFallback fst r,
      e.phys_block_num * fs.block_size + e.length_bytes < U64) :
    ∃ out, fs.read_file_slice r O L = .ok out ∧
      out.length = min L (min (effective_size fst r - O) MAX_READ_BYTES) ∧
      ∀ i, i < out.length →
        out.getD i 0 = sliceSpecByte (fileExtentsWithFallback fst r)
          fs.block_size fs.disk (O + i) := by
  obtain ⟨out, h1, h2, h3⟩ := read_slice_with_size_spec fs r fst O L
    (effective_size fst r) hfst hdir (effective_size_lt_u64 fst r hsz) hO
    hwrap hdisj hphys
  refine ⟨out, ?_, h2, h3⟩
  unfold ApfsFs.read_file_slice
  simp only [hfst]
  exact h1

/-- Counterexample for C1 as stated: over a record whose effective size
is 2^64 - 1, the in-bounds slice request at offset 2^64 - 2 with length
1 returns the empty buffer — length 0 instead of the claimed
min(1, S - O, 512 MiB) = 1 — because the source adds the 512 MiB cap to
the offset with wrapping u64 addition. -/
theorem c1_counterexample :
    (2 ^ 64 - 2 : Nat) ≤ effective_size cxTree cxRec ∧
    is_dir_mode cxRec.inode.mode = false ∧
    cxFs.read_file_slice cxRec (2 ^ 64 - 2) 1 = .ok [] ∧
    min 1 (min (effective_size cxTree cxRec - (2 ^ 64 - 2)) MAX_READ_BYTES) = 1 := by
  refine ⟨by decide, by decide, rfl, by decide⟩

/-- Witness for C1: over the one-extent fixture, a slice of length 5 at
offset 0 exists, has length min(5, 4096, 512 MiB) = 5 and matches the
per-byte extent reconstruction. -/
theorem c1_witness :
    (0 : Nat) ≤ effective_size w1Tree w1Rec ∧
    ∃ out, w1Fs.read_file_slice w1Rec 0 5 = .ok out ∧
      out.length = min 5 (min (effective_size w1Tree w1Rec - 0) MAX_READ_BYTES) ∧
      ∀ i, i < out.length →
        out.getD i 0 = sliceSpecByte (fileExtentsWithFallback w1Tree w1Rec)
          w1Fs.block_size w1Fs.disk (0 + i) :=
  ⟨Nat.zero_le _,
    c1_read_file_slice_reconstruction w1Fs w1Rec w1Tree 0 5 rfl (by decide)
      (by decide) (Nat.zero_le _) (by decide) (by decide) (by decide)⟩

/-- Claim C2: read_file_content refuses (with the cap error message)
any file whose effective size exceeds 512 MiB, never truncating
silently, whereas read_file_slice clamps: on a file of declared size
1 GiB, a slice read at offset 0 with length 1 GiB returns exactly
512 MiB of data. -/
theorem c2_content_cap_and_slice_clamp (fs : ApfsFs) (r : ApfsFileRecord)
    (fst : FsTree) (hfst : fs.get_fstree r.fs_index = .ok fst) :
    (MAX_READ_BYTES < effective_size fst r →
      fs.read_file_content r = .error (capRefusalMsg (effective_size fst r))) ∧
    (r.size = 2 ^ 30 → is_dir_mode r.inode.mode = false →
      (fileExtentsWithFallback fst r).Pairwise ExtDisjoint →
      (∀ e ∈ fileExtentsWithFallback fst r,
        e.phys_block_num * fs.block_size + e.length_bytes < U64) →
      ∃ out, fs.read_file_slice r 0 (2 ^ 30) = .ok out ∧
        out.length = MAX_READ_BYTES) := by
  constructor
  · intro hcap
    unfold ApfsFs.read_file_content
    simp only [hfst]
    rw [if_pos hcap]
  · intro hdecl hdir hdisj hphys
    have hS : effective_size fst r < U64 :=
      effective_size_lt_u64 fst r (by rw [hdecl]; unfold U64; norm_num)
    obtain ⟨out, h1, h2, _⟩ := read_slice_with_size_spec fs r fst 0 (2 ^ 30)
      (effective_size fst r) hfst hdir hS (Nat.zero_le _)
      (by unfold MAX_READ_BYTES U64; norm_num) hdisj hphys
    refine ⟨out, ?_, ?_⟩
    · unfold ApfsFs.read_file_slice
      simp only [hfst]
      exact h1
    · rw [h2]
      have hge : 2 ^ 30 ≤ effective_size fst r :=
        hdecl ▸ effective_size_ge_declared fst r
      unfold MAX_READ_BYTES at *
      omega

/-- Witness for C2 over a file of declared size 1 GiB: the whole-file
read fails with the cap message and the 1 GiB slice read at offset 0
returns exactly 512 MiB. -/
theorem c2_witness :
    MAX_READ_BYTES < effective_size w2Tree w2Rec ∧
    w2Fs.read_file_content w2Rec = .error (capRefusalMsg (effective_size w2Tree w2Rec)) ∧
    ∃ out, w2Fs.read_file_slice w2Rec 0 (2 ^ 30) = .ok out ∧
      out.length = MAX_READ_BYTES := by
  have h := c2_content_cap_and_slice_clamp w2Fs w2Rec w2Tree rfl
  exact ⟨by decide, h.1 (by decide), h.2 (by decide) (by decide) (by decide) (by decide)⟩

theorem get_fstree_ok_trees (fs : ApfsFs) (fsi : Nat) (t : FsTree)
    (h : fs.get_fstree fsi = .ok t) : fs.trees fsi = some t := by
  unfold ApfsFs.get_fstree at h
  cases hv : fs.volume_by_index fsi with
  | none =>
    rw [hv] at h
    exact absurd h (by simp)
  | some v =>
    rw [hv] at h
    cases ht : fs.trees fsi with
    | none =>
      rw [ht] at h
      exact absurd h (by simp)
    | some t2 =>
      rw [ht] at h
      obtain rfl := Except.ok.inj h
      rfl

theorem enumerate_loop_inv {F D : Type} (efs : EngineFs F D)
    (hId : ∀ r id p, (efs.record_to_file r id p).identifier = id)
    (hPath : ∀ r id p, (efs.record_to_file r id p).absolute_path = p) :
    ∀ (fuel : Nat) (visited : List Nat) (queue : List (Nat × List Char))
      (out : List File),
      (out.map File.identifier).Nodup →
      (∀ fid ∈ out.map File.identifier, fid ∈ visited) →
      (∀ f ∈ out, efs.path_separator <+: f.absolute_path) →
      (∀ q ∈ queue, efs.path_separator <+: q.2) →
      ((enumerate_loop efs fuel visited queue out).map File.identifier).Nodup ∧
      (∀ f ∈ enumerate_loop efs fuel visited queue out,
        efs.path_separator <+: f.absolute_path) := by
  intro fuel
  induction fuel with
  | zero =>
    intro visited queue out h1 h2 h3 h4
    exact ⟨h1, h3⟩
  | succ fuel ih =>
    intro visited queue out h1 h2 h3 h4
    match queue with
    | [] => exact ⟨h1, h3⟩
    | (id, path) :: rest =>
      simp only [enumerate_loop]
      by_cases hv : id ∈ visited
      · rw [if_pos hv]
        exact ih visited rest out h1 h2 h3 (fun q hq => h4 q (by simp [hq]))
      · rw [if_neg hv]
        cases hgf : efs.get_file id with
        | none =>
          exact ih _ rest out h1
            (fun fid hf => List.mem_cons_of_mem _ (h2 fid hf)) h3
            (fun q hq => h4 q (by simp [hq]))
        | some r =>
          dsimp only
          have hmem : (efs.record_to_file r id path).identifier = id := hId r id path
          have h1' : ((out ++ [efs.record_to_file r id path]).map
              File.identifier).Nodup := by
            rw [List.map_append, List.nodup_append]
            refine ⟨h1, by simp, ?_⟩
            intro x hx hx2
            have hxid : x = id := by simpa [hmem] using hx2
            exact hv (hxid ▸ h2 x hx)
          have h2' : ∀ fid ∈ (out ++ [efs.record_to_file r id path]).map
              File.identifier, fid ∈ id :: visited := by
            intro fid hf
            rw [List.map_append, List.mem_append] at hf
            rcases hf with hf | hf
            · exact List.mem_cons_of_mem _ (h2 fid hf)
            · have : fid = id := by simpa [hmem] using hf
              rw [this]
              exact List.mem_cons_self _ _
          have h3' : ∀ f ∈ out ++ [efs.record_to_file r id path],
              efs.path_separator <+: f.absolute_path := by
            intro f hf
            rw [List.mem_append] at hf
            rcases hf with hf | hf
            · exact h3 f hf
            · have : f = efs.record_to_file r id path := by simpa using hf
              rw [this, hPath]
              exact h4 (id, path) (by simp)
          by_cases hd : efs.is_dir r = true
          · rw [if_pos hd]
            cases hld : efs.list_dir r with
            | none =>
              exact ih _ rest _ h1' h2' h3' (fun q hq => h4 q (by simp [hq]))
            | some entries =>
              refine ih _ _ _ h1' h2' h3' ?_
              intro q hq
              rw [List.mem_append] at hq
              rcases hq with hq | hq
              · exact h4 q (by simp [hq])
              · obtain ⟨de, _, rfl⟩ := List.mem_map.mp hq
                dsimp only
                by_cases hroot : path = efs.path_separator
                · rw [if_pos hroot]
                  exact List.prefix_append _ _
                · rw [if_neg hroot]
                  refine (h4 (id, path) (by simp)).trans ?_
                  rw [List.append_assoc]
                  exact List.prefix_append _ _
          · rw [if_neg hd]
            exact ih _ rest _ h1' h2' h3' (fun q hq => h4 q (by simp [hq]))

theorem pack_identifier_inj_low (f a b : Nat) (ha : a < 2 ^ 56) (hb : b < 2 ^ 56)
    (h : pack_identifier f a = pack_identifier f b) : a = b := by
  have h2 := congrArg (fun v => v % 2 ^ 56) h
  simp only [pack_identifier_mod] at h2
  rwa [Nat.mod_eq_of_lt ha, Nat.mod_eq_of_lt hb] at h2

theorem walk_volume_inv (fs : ApfsFs) (fsi : Nat) (vp : List Char)
    (hkids : ∀ t, fs.trees fsi = some t → ∀ id cs, t.dir_children id = some cs →
      ∀ de ∈ cs, ∀ cid, de.inode_id = some cid → cid < 2 ^ 56) :
    ∀ (fuel : Nat) (visited : List Nat) (queue : List (Nat × List Char))
      (out res : List File),
      walk_volume_loop fs fsi vp fuel visited queue out = .ok res →
      (out.map File.identifier).Nodup →
      (∀ fid ∈ out.map File.identifier,
        ∃ iid, iid ∈ visited ∧ iid < 2 ^ 56 ∧ fid = pack_identifier fsi iid) →
      (∀ f ∈ out, vp <+: f.absolute_path) →
      (∀ q ∈ queue, q.1 < 2 ^ 56 ∧ vp <+: q.2) →
      (res.map File.identifier).Nodup ∧
      (∀ fid ∈ res.map File.identifier,
        ∃ iid, iid < 2 ^ 56 ∧ fid = pack_identifier fsi iid) ∧
      (∀ f ∈ res, vp <+: f.absolute_path) := by
  intro fuel
  induction fuel with
  | zero =>
    intro visited queue out res hres h1 h2 h3 h4
    obtain rfl : out = res := Except.ok.inj hres
    exact ⟨h1, fun fid hf => (h2 fid hf).elim
      (fun iid hiid => ⟨iid, hiid.2.1, hiid.2.2⟩), h3⟩
  | succ fuel ih =>
    intro visited queue out res hres h1 h2 h3 h4
    match queue with
    | [] =>
      obtain rfl : out = res := Except.ok.inj hres
      exact ⟨h1, fun fid hf => (h2 fid hf).elim
        (fun iid hiid => ⟨iid, hiid.2.1, hiid.2.2⟩), h3⟩
    | (inode_id, path) :: rest =>
      simp only [walk_volume_loop] at hres
      by_cases hv : inode_id ∈ visited
      · rw [if_pos hv] at hres
        exact ih visited rest out res hres h1 h2 h3 (fun q hq => h4 q (by simp [hq]))
      · rw [if_neg hv] at hres
        cases hft : fs.get_fstree fsi with
        | error e =>
          rw [hft] at hres
          exact absurd hres (by simp)
        | ok fst =>
          rw [hft] at hres
          dsimp only at hres
          cases hin : fst.inode_by_id inode_id with
          | none =>
            rw [hin] at hres
            refine ih _ rest out res hres h1 ?_ h3
              (fun q hq => h4 q (by simp [hq]))
            intro fid hf
            obtain ⟨iid, hiv, hlt, hpk⟩ := h2 fid hf
            exact ⟨iid, List.mem_cons_of_mem _ hiv, hlt, hpk⟩
          | some inode =>
            rw [hin] at hres
            dsimp only at hres
            have hq1 : inode_id < 2 ^ 56 := (h4 (inode_id, path) (by simp)).1
            have hq2 : vp <+: path := (h4 (inode_id, path) (by simp)).2
            have h1' : ((out ++ [fs.record_to_file ⟨fsi, inode_id, inode⟩
                (pack_identifier fsi inode_id) path]).map File.identifier).Nodup := by
              rw [List.map_append, List.nodup_append]
              refine ⟨h1, by simp, ?_⟩
              intro x hx hx2
              have hxid : x = pack_identifier fsi inode_id := by simpa using hx2
              obtain ⟨iid, hiv, hlt, hpk⟩ := h2 x hx
              have : iid = inode_id :=
                pack_identifier_inj_low fsi iid inode_id hlt hq1
                  (by rw [← hpk, ← hxid])
              exact hv (this ▸ hiv)
            have h2' : ∀ fid ∈ (out ++ [fs.record_to_file ⟨fsi, inode_id, inode⟩
                (pack_identifier fsi inode_id) path]).map File.identifier,
                ∃ iid, iid ∈ inode_id :: visited ∧ iid < 2 ^ 56 ∧
                  fid = pack_identifier fsi iid := by
              intro fid hf
              rw [List.map_append, List.mem_append] at hf
              rcases hf with hf | hf
              · obtain ⟨iid, hiv, hlt, hpk⟩ := h2 fid hf
                exact ⟨iid, List.mem_cons_of_mem _ hiv, hlt, hpk⟩
              · have : fid = pack_identifier fsi inode_id := by simpa using hf
                exact ⟨inode_id, List.mem_cons_self _ _, hq1, this⟩
            have h3' : ∀ f ∈ out ++ [fs.record_to_file ⟨fsi, inode_id, inode⟩
                (pack_identifier fsi inode_id) path], vp <+: f.absolute_path := by
              intro f hf
              rw [List.mem_append] at hf
              rcases hf with hf | hf
              · exact h3 f hf
              · have : f = fs.record_to_file ⟨fsi, inode_id, inode⟩
                    (pack_identifier fsi inode_id) path := by simpa using hf
                rw [this]
                exact hq2
            by_cases hdir : ApfsFileRecord.is_dir ⟨fsi, inode_id, inode⟩ = true
            · rw [if_pos hdir] at hres
              cases hch : fst.dir_children inode_id with
              | none =>
                rw [hch] at hres
                exact ih _ rest _ res hres h1' h2' h3'
                  (fun q hq => h4 q (by simp [hq]))
              | some children =>
                rw [hch] at hres
                dsimp only at hres
                refine ih _ _ _ res hres h1' h2' h3' ?_
                intro q hq
                rw [List.mem_append] at hq
                rcases hq with hq | hq
                · exact h4 q (by simp [hq])
                · obtain ⟨de, hde, hq⟩ := List.mem_filterMap.mp hq
                  cases hdei : de.inode_id with
                  | none =>
                    rw [hdei] at hq
                    exact absurd hq (by simp)
                  | some cid =>
                    rw [hdei] at hq
                    obtain rfl : (cid, if path = vp then vp ++ '/' :: de.name
                        else path ++ '/' :: de.name) = q := Option.some.inj hq
                    have htree : fs.trees fsi = some fst :=
                      get_fstree_ok_trees fs fsi fst hft
                    refine ⟨hkids fst htree inode_id children hch de hde cid hdei, ?_⟩
                    dsimp only
                    by_cases hroot : path = vp
                    · rw [if_pos hroot]
                      exact List.prefix_append _ _
                    · rw [if_neg hroot]
                      exact hq2.trans (List.prefix_append _ _)
            · rw [if_neg hdir] at hres
              exact ih _ rest _ res hres h1' h2' h3'
                (fun q hq => h4 q (by simp [hq]))

theorem walk_fs_volumes_spec (fs : ApfsFs) (fuel : Nat)
    (hkids : ∀ fsi t, fs.trees fsi = some t → ∀ id cs,
      t.dir_children id = some cs →
      ∀ de ∈ cs, ∀ cid, de.inode_id = some cid → cid < 2 ^ 56) :
    ∀ (vols : List (Nat × Nat)) (res : List File),
      walk_fs_volumes fs fuel vols = .ok res →
      (∀ v ∈ vols, v.2 < 2 ^ 56) →
      vols.Pairwise (fun u v => u.1 % 256 ≠ v.1 % 256) →
      (res.map File.identifier).Nodup ∧
      (∀ fid ∈ res.map File.identifier,
        ∃ v ∈ vols, ∃ iid, iid < 2 ^ 56 ∧ fid = pack_identifier v.1 iid) ∧
      (∀ f ∈ res, ∃ v ∈ vols, volPrefixPath v.1 <+: f.absolute_path) := by
  intro vols
  induction vols with
  | nil =>
    intro res hres _ _
    obtain rfl : ([] : List File) = res := Except.ok.inj hres
    simp
  | cons v vt ih =>
    intro res hres hroots hpw
    obtain ⟨fsi, root⟩ := v
    simp only [walk_fs_volumes] at hres
    cases hw : walk_volume_loop fs fsi (volPrefixPath fsi) fuel []
        [(root, volPrefixPath fsi)] [] with
    | error e =>
      rw [hw] at hres
      exact absurd hres (by simp)
    | ok out1 =>
      rw [hw] at hres
      dsimp only at hres
      cases hrest : walk_fs_volumes fs fuel vt with
      | error e =>
        rw [hrest] at hres
        exact absurd hres (by simp)
      | ok out2 =>
        rw [hrest] at hres
        obtain rfl : out1 ++ out2 = res := Except.ok.inj hres
        obtain ⟨n1, e1, p1⟩ := walk_volume_inv fs fsi (volPrefixPath fsi)
          (hkids fsi) fuel [] [(root, volPrefixPath fsi)] [] out1 hw
          (by simp) (by simp) (by simp)
          (by
            intro q hq
            have : q = (root, volPrefixPath fsi) := by simpa using hq
            rw [this]
            exact ⟨hroots (fsi, root) (by simp), List.prefix_rfl⟩)
        obtain ⟨n2, e2, p2⟩ := ih out2 hrest
          (fun v2 hv2 => hroots v2 (by simp [hv2]))
          (List.pairwise_cons.mp hpw).2
        refine ⟨?_, ?_, ?_⟩
        · rw [List.map_append, List.nodup_append]
          refine ⟨n1, n2, ?_⟩
          intro x hx hx2
          obtain ⟨iid, hi1, hi2⟩ := e1 x hx
          obtain ⟨v2, hv2, jid, hj1, hj2⟩ := e2 x hx2
          have hne : fsi % 256 ≠ v2.1 % 256 :=
            (List.pairwise_cons.mp hpw).1 v2 hv2
          have hdq := congrArg (fun w => w / 2 ^ 56) (hi2.symm.trans hj2)
          simp only [pack_identifier_div] at hdq
          exact hne hdq
        · intro fid hf
          rw [List.map_append, List.mem_append] at hf
          rcases hf with hf | hf
          · obtain ⟨iid, hl, hp⟩ := e1 fid hf
            exact ⟨(fsi, root), by simp, iid, hl, hp⟩
          · obtain ⟨v2, hv2, jid, hl, hp⟩ := e2 fid hf
            exact ⟨v2, by simp [hv2], jid, hl, hp⟩
        · intro f hf
          rw [List.mem_append] at hf
          rcases hf with hf | hf
          · exact ⟨(fsi, root), by simp, p1 f hf⟩
          · obtain ⟨v2, hv2, hp⟩ := p2 f hf
            exact ⟨v2, by simp [hv2], hp⟩

/-- Claim C7: breadth-first enumeration emits at most one record per
identifier and every emitted absolute_path begins with the path
separator — for the generic engine (over any adapter whose
record_to_file reflects the passed identifier and path, as all four do)
and for the APFS multi-volume walk, whose paths begin with the
per-volume root "/volume_<fs_index>" (hence with the separator "/").
The APFS part assumes the packed-identifier data model: inode ids fit
in 56 bits and volume indices are distinct modulo 256. -/
theorem c7_enumeration_unique_and_prefixed :
    (∀ (F D : Type) (efs : EngineFs F D) (fuel : Nat),
      (∀ r id p, (efs.record_to_file r id p).identifier = id) →
      (∀ r id p, (efs.record_to_file r id p).absolute_path = p) →
      ((enumerate_collect efs fuel).map File.identifier).Nodup ∧
      ∀ f ∈ enumerate_collect efs fuel,
        efs.path_separator <+: f.absolute_path) ∧
    (∀ (afs : ApfsFs) (fuel : Nat) (res : List File),
      enumerate_all_files afs fuel = .ok res →
      (∀ v ∈ afs.valid_volumes, v.2 < 2 ^ 56) →
      (∀ fsi t, afs.trees fsi = some t → ∀ id cs,
        t.dir_children id = some cs →
        ∀ de ∈ cs, ∀ cid, de.inode_id = some cid → cid < 2 ^ 56) →
      afs.valid_volumes.Pairwise (fun u v => u.1 % 256 ≠ v.1 % 256) →
      (res.map File.identifier).Nodup ∧
      ∀ f ∈ res,
        (∃ v ∈ afs.valid_volumes, volPrefixPath v.1 <+: f.absolute_path) ∧
        ['/'] <+: f.absolute_path) := by
  constructor
  · intro F D efs fuel hId hPath
    exact enumerate_loop_inv efs hId hPath fuel []
      [(efs.get_root_file_id, efs.path_separator)] [] (by simp) (by simp)
      (by simp)
      (by
        intro q hq
        have : q = (efs.get_root_file_id, efs.path_separator) := by simpa using hq
        rw [this])
  · intro afs fuel res hres hroots hkids hpw
    obtain ⟨n, _, p⟩ := walk_fs_volumes_spec afs fuel hkids afs.valid_volumes
      res hres hroots hpw
    refine ⟨n, ?_⟩
    intro f hf
    obtain ⟨v, hv, hp⟩ := p f hf
    refine ⟨⟨v, hv, hp⟩, ?_⟩
    exact (show ['/'] <+: volPrefixPath v.1 from ⟨_, rfl⟩).trans hp

/-- Witness for C7: the generic engine over the two-node fixture
filesystem, and the APFS walk over the one-volume fixture (root
directory 2 with child file 3), both instantiating the theorem. -/
theorem c7_witness :
    (((enumerate_collect w7Engine 4).map File.identifier).Nodup ∧
      ∀ f ∈ enumerate_collect w7Engine 4,
        w7Engine.path_separator <+: f.absolute_path) ∧
    ∃ res, enumerate_all_files w7Afs 5 = .ok res ∧
      (res.map File.identifier).Nodup ∧
      ∀ f ∈ res,
        (∃ v ∈ w7Afs.valid_volumes, volPrefixPath v.1 <+: f.absolute_path) ∧
        ['/'] <+: f.absolute_path := by
  have hk : ∀ fsi t, w7Afs.trees fsi = some t → ∀ id cs,
      t.dir_children id = some cs →
      ∀ de ∈ cs, ∀ cid, de.inode_id = some cid → cid < 2 ^ 56 := by
    intro fsi t ht id cs hcs de hde cid hcid
    simp only [w7Afs] at ht
    by_cases h0 : fsi = 0
    · rw [if_pos h0] at ht
      obtain rfl : w7Tree = t := Option.some.inj ht
      simp only [w7Tree] at hcs
      by_cases h2 : id = 2
      · rw [if_pos h2] at hcs
        obtain rfl := Option.some.inj hcs
        have hde2 : de = ⟨some 3, ['a'], 10, 0, 0⟩ := by simpa using hde
        rw [hde2] at hcid
        have : (3 : Nat) = cid := by simpa using hcid
        omega
      · rw [if_neg h2] at hcs
        exact absurd hcs (by simp)
    · rw [if_neg h0] at ht
      exact absurd ht (by simp)
  refine ⟨c7_enumeration_unique_and_prefixed.1 Nat Nat w7Engine 4
    (fun _ _ _ => rfl) (fun _ _ _ => rfl), ?_⟩
  refine ⟨_, rfl, ?_⟩
  exact c7_enumeration_unique_and_prefixed.2 w7Afs 5 _ rfl (by decide) hk
    (by decide)
